import Mathlib

/-!
Verification of the TransmissionHelper retention policy engine and storage
reconciler (src/TransmissionHelper.py) against its specification.

The Python source is shallowly embedded below.  Sizes are natural numbers
(Python ints from `transmission_rpc` / `shutil.disk_usage` are non-negative),
seeding ratios are rationals (the source manipulates them only with `>=`
comparisons and a stable sort, for which `ℚ` is a faithful model of the
float values occurring in the claims), and the instance attributes that the
source mutates are threaded explicitly through a `HelperState` record.
-/

namespace TransmissionHelper

/-- One managed torrent as seen by the helper: the fields of the
`transmission_rpc` torrent objects that the decision logic reads
(`id`, `name`, `total_size`, `upload_ratio`). -/
structure Torrent where
  id : Nat
  name : String
  total_size : Nat
  upload_ratio : ℚ
  deriving DecidableEq

/-- The two policy constants of the class (lines 61-64):
`MIN_SEED_RATIO` (default 3.0) and `MIN_FREE_SPACE` (default 100 GiB),
possibly overridden from the command line before any action runs. -/
structure HelperConfig where
  min_seed_ratio : ℚ
  min_free_space : Nat
  deriving DecidableEq

/-- The defaults hard-coded in the class body. -/
def defaultConfig : HelperConfig :=
  { min_seed_ratio := 3, min_free_space := 100 * 1024 * 1024 * 1024 }

/-- The mutable instance attributes initialised in `__init__` (lines 138-142)
and written by `__get_torrents_data` / `cleanup`. -/
structure HelperState where
  torrent_list : List Torrent
  torrent_list_min_ratio : List Torrent
  torrent_list_min_ratio_size : Nat
  torrent_list_min_free_space : List Torrent
  torrent_list_min_free_space_size : Nat
  deriving DecidableEq

/-- The state right after `__init__`: empty lists, zero accumulators. -/
def initState : HelperState :=
  { torrent_list := []
    torrent_list_min_ratio := []
    torrent_list_min_ratio_size := 0
    torrent_list_min_free_space := []
    torrent_list_min_free_space_size := 0 }

/-- Ordering used at line 228: `sort(reverse=True, key=lambda t: t.upload_ratio)`
places `a` no later than `b` exactly when `b.upload_ratio ≤ a.upload_ratio`. -/
def ratioGE (a b : Torrent) : Prop :=
  b.upload_ratio ≤ a.upload_ratio

instance : DecidableRel ratioGE :=
  fun a b => inferInstanceAs (Decidable (b.upload_ratio ≤ a.upload_ratio))

instance : IsTotal Torrent ratioGE :=
  ⟨fun a b => le_total b.upload_ratio a.upload_ratio⟩

instance : IsTrans Torrent ratioGE :=
  ⟨fun _ _ _ h1 h2 => le_trans h2 h1⟩

/-- Line 228: stable sort of the torrent list by seeding ratio, highest first.
Python's `list.sort` is stable; `List.insertionSort` with `ratioGE` is the
standard stable model of a descending sort. -/
def sort_by_ratio_desc (l : List Torrent) : List Torrent :=
  List.insertionSort ratioGE l

/-- Lines 230-231: sublist of the sorted list keeping only the torrents whose
`upload_ratio` is at least `MIN_SEED_RATIO` (note the inclusive `>=`). -/
def min_ratio_list (min_seed_ratio : ℚ) (l : List Torrent) : List Torrent :=
  (sort_by_ratio_desc l).filter (fun t => min_seed_ratio ≤ t.upload_ratio)

/-- Sum of `total_size` over a torrent list, as the `+=` loops at
lines 233-234 and 265-266 compute it. -/
def sum_sizes (l : List Torrent) : Nat :=
  List.foldl (fun a t => a + t.total_size) 0 l

/-- Lines 223-234, `__get_torrents_data`: store the server's torrent list
sorted by ratio descending, recompute the min-ratio sublist, and ADD its
total size to the accumulator `torrent_list_min_ratio_size` (the source
uses `+=` on an instance attribute that is never reset). -/
def get_torrents_data (cfg : HelperConfig) (server : List Torrent)
    (s : HelperState) : HelperState :=
  let sorted := sort_by_ratio_desc server
  let minRatio := sorted.filter (fun t => cfg.min_seed_ratio ≤ t.upload_ratio)
  { s with
    torrent_list := sorted
    torrent_list_min_ratio := minRatio
    torrent_list_min_ratio_size := s.torrent_list_min_ratio_size + sum_sizes minRatio }

/-- Line 221, `__is_enough_free_space`: strictly more free space than
`MIN_FREE_SPACE` (`>` in the source, not `>=`). -/
def is_enough_free_space (cfg : HelperConfig) (free : Nat) : Prop :=
  cfg.min_free_space < free

instance (cfg : HelperConfig) (free : Nat) : Decidable (is_enough_free_space cfg free) :=
  inferInstanceAs (Decidable (cfg.min_free_space < free))

/-- Lines 257-263: the selection loop of the `MIN_FREE_SPACE` clean mode.
`total` is the local accumulator `total_torrents_to_clean`; while it is
below `space_to_free` the current torrent is kept and its size added,
otherwise the loop breaks. -/
def select_loop (space_to_free : Int) (total : Int) : List Torrent → List Torrent
  | [] => []
  | t :: ts =>
    if total < space_to_free then
      t :: select_loop space_to_free (total + (t.total_size : Int)) ts
    else []

/-- Outcome of one `cleanup` run in `MIN_FREE_SPACE` mode:
`earlyExit` is the `exit(0)` at line 243 (enough free space, torrents never
fetched), `noEligible` is the `exit(1)` at line 251 (fetched, but the
accumulated eligible size is zero), and `planned s` is normal completion
with the selection recorded in the final state `s`. -/
inductive CleanupOutcome where
  | earlyExit : CleanupOutcome
  | noEligible : CleanupOutcome
  | planned : HelperState → CleanupOutcome
  deriving DecidableEq

/-- Lines 236-283, `cleanup` with `clean_mode = CleanMode.MIN_FREE_SPACE`,
up to the removal decision (the optional RPC removal and the post-removal
re-probe perform no further selection).  `free` is the probed free space of
the monitored volume.  The selection is appended to the instance list
`torrent_list_min_free_space` and the size loop at lines 265-266 then adds
the total size of that WHOLE list to `torrent_list_min_free_space_size`
(both are `+=` on attributes that are never reset). -/
def cleanup_free_space (cfg : HelperConfig) (free : Nat) (server : List Torrent)
    (s : HelperState) : CleanupOutcome :=
  if cfg.min_free_space < free then
    CleanupOutcome.earlyExit
  else
    let s1 := get_torrents_data cfg server s
    if s1.torrent_list_min_ratio_size = 0 then
      CleanupOutcome.noEligible
    else
      let space_to_free : Int := (cfg.min_free_space : Int) - (free : Int)
      let sel := select_loop space_to_free 0 s1.torrent_list_min_ratio
      CleanupOutcome.planned
        { s1 with
          torrent_list_min_free_space := s1.torrent_list_min_free_space ++ sel
          torrent_list_min_free_space_size :=
            s1.torrent_list_min_free_space_size +
              sum_sizes (s1.torrent_list_min_free_space ++ sel) }

/-- The removal selection of a fresh run (a fresh process, state as left by
`__init__`): the contents of `torrent_list_min_free_space` when `cleanup`
completes, `[]` on either early exit. -/
def planSelection (cfg : HelperConfig) (free : Nat) (server : List Torrent) :
    List Torrent :=
  match cleanup_free_space cfg free server initState with
  | CleanupOutcome.planned s => s.torrent_list_min_free_space
  | _ => []

/-- The helper state after a `cleanup` run (unchanged-from-`__init__` state
on the two early exits, which terminate the process). -/
def stateAfter : CleanupOutcome → HelperState
  | CleanupOutcome.planned s => s
  | _ => initState

/-- Line 214: the ordered unit table of `__human_readable_size`. -/
def sizeUnits : List String :=
  ["B", "KiB", "MiB", "GiB", "TiB", "PiB"]

/-- Lines 214-217: the loop of `__human_readable_size`.  For each unit in
order, break when the remaining magnitude is below 1024 or the unit is the
last one (`PiB`); otherwise divide by 1024 and move to the next unit.
Returns the remaining magnitude together with the unit in force at the
break.  (The `[]` case is unreachable: the loop always breaks at `PiB`.) -/
def hr_loop : ℚ → List String → ℚ × String
  | size, [] => (size, "")
  | size, u :: us =>
    if size < 1024 ∨ u = "PiB" then (size, u)
    else hr_loop (size / 1024) us

/-- Number of hundredths when `q` is rounded to the nearest hundredth:
`⌊q * 100 + 1/2⌋` computed directly on the numerator and denominator
(`q.den > 0`, so floor division `Int.fdiv` by `2 * q.den` is the floor). -/
def round2 (q : ℚ) : Int :=
  Int.fdiv (200 * q.num + (q.den : Int)) (2 * (q.den : Int))

/-- Rendering of Python's `f"{size:.2f}"` (the default `decimal_places=2`)
for a non-negative rational: round to the nearest hundredth (the sizes in
the specification's examples are exact multiples of 1/100, so no
float-rounding subtlety arises) and print with exactly two fraction
digits. -/
def formatFixed2 (q : ℚ) : String :=
  let n : Int := round2 q
  let frac : Nat := (Int.emod n 100).toNat
  toString (Int.ediv n 100) ++ "." ++
    (if frac < 10 then "0" ++ toString frac else toString frac)

/-- Lines 212-218, `__human_readable_size` with the default two decimal
places. -/
def human_readable_size (size : ℚ) : String :=
  let r := hr_loop size sizeUnits
  formatFixed2 r.1 ++ " " ++ r.2

/-- Whether some torrent's `name` equals the directory entry `item`:
the inner loop of lines 349-352 with its `item_found` flag and `break`. -/
def nameMatches (torrents : List Torrent) (item : String) : Bool :=
  torrents.any (fun t => t.name == item)

/-- Lexicographic comparison of character lists by code point: the order
Python uses to compare strings. -/
def charListLe : List Char → List Char → Bool
  | [], _ => true
  | _ :: _, [] => false
  | a :: as, b :: bs =>
    if a.toNat < b.toNat then true
    else if b.toNat < a.toNat then false
    else charListLe as bs

/-- Python's `<=` on strings: lexicographic by code point. -/
def strLe (a b : String) : Bool :=
  charListLe a.data b.data

/-- The `strLe` comparison as a relation, for use with the stable sort. -/
def strLeR (a b : String) : Prop :=
  strLe a b = true

instance : DecidableRel strLeR :=
  fun a b => inferInstanceAs (Decidable (strLe a b = true))

instance : IsTotal String strLeR where
  total := by
    have h : ∀ xs ys : List Char, charListLe xs ys = true ∨ charListLe ys xs = true := by
      intro xs
      induction xs with
      | nil => intro ys; left; rfl
      | cons a as ih =>
        intro ys
        cases ys with
        | nil => right; rfl
        | cons b bs =>
          rcases Nat.lt_trichotomy a.toNat b.toNat with hlt | heq | hgt
          · left; rw [charListLe, if_pos hlt]
          · rcases ih bs with h1 | h1
            · left
              rw [charListLe, if_neg (by omega), if_neg (by omega)]
              exact h1
            · right
              rw [charListLe, if_neg (by omega), if_neg (by omega)]
              exact h1
          · right; rw [charListLe, if_pos hgt]
    exact fun a b => h a.data b.data

instance : IsTrans String strLeR where
  trans := by
    have h : ∀ xs ys zs : List Char, charListLe xs ys = true →
        charListLe ys zs = true → charListLe xs zs = true := by
      intro xs
      induction xs with
      | nil => intro ys zs _ _; rfl
      | cons a as ih =>
        intro ys zs h1 h2
        cases ys with
        | nil => rw [charListLe] at h1; exact absurd h1 (by simp)
        | cons b bs =>
          cases zs with
          | nil => rw [charListLe] at h2; exact absurd h2 (by simp)
          | cons c cs =>
            rw [charListLe] at h1 h2 ⊢
            by_cases hab : a.toNat < b.toNat
            · by_cases hbc : b.toNat < c.toNat
              · rw [if_pos (by omega)]
              · rw [if_neg hbc] at h2
                by_cases hcb : c.toNat < b.toNat
                · rw [if_pos hcb] at h2; exact absurd h2 (by simp)
                · rw [if_pos (by omega)]
            · rw [if_neg hab] at h1
              by_cases hba : b.toNat < a.toNat
              · rw [if_pos hba] at h1; exact absurd h1 (by simp)
              · rw [if_neg hba] at h1
                by_cases hbc : b.toNat < c.toNat
                · rw [if_pos (by omega)]
                · rw [if_neg hbc] at h2
                  by_cases hcb : c.toNat < b.toNat
                  · rw [if_pos hcb] at h2; exact absurd h2 (by simp)
                  · rw [if_neg hcb] at h2
                    rw [if_neg (by omega), if_neg (by omega)]
                    exact ih bs cs h1 h2
    exact fun a b c h1 h2 => h a.data b.data c.data h1 h2

/-- Lines 345-357 of `storage_delta`: the entries of the download directory
listing with no matching torrent name (exact, case-sensitive string
equality), then `dl_extra_list.sort()` — Python's lexicographic string
sort. -/
def dl_extra_list (torrents : List Torrent) (entries : List String) : List String :=
  List.insertionSort strLeR
    (entries.filter (fun item => !(nameMatches torrents item)))

/-- Kind of an on-disk entry, needed to model `Path.unlink`. -/
inductive EntryKind where
  | file : EntryKind
  | dir : EntryKind
  deriving DecidableEq

/-- One entry of the download directory. -/
structure DirEntry where
  name : String
  kind : EntryKind
  deriving DecidableEq

/-- Result of one deletion attempt at lines 367-375: the success print or
one of the three caught exception branches (`FileNotFoundError`,
`PermissionError`/other `OSError` such as `IsADirectoryError` when
`Path.unlink` is applied to a directory). -/
inductive UnlinkResult where
  | deleted : UnlinkResult
  | notFound : UnlinkResult
  | isADirectory : UnlinkResult
  deriving DecidableEq

/-- Models `Path(file_path_to_delete).unlink()` at line 368 on the download
directory's listing: a missing name raises `FileNotFoundError`, a directory
raises `IsADirectoryError` (unlink never removes a directory, recursively or
otherwise), and a plain file is removed.  Every raise is caught by the
`except` clauses at lines 370-375, so the caller observes a result, never a
propagated exception. -/
def unlinkEntry (fs : List DirEntry) (nm : String) : List DirEntry × UnlinkResult :=
  match fs.find? (fun e => e.name == nm) with
  | none => (fs, UnlinkResult.notFound)
  | some e =>
    match e.kind with
    | EntryKind.dir => (fs, UnlinkResult.isADirectory)
    | EntryKind.file => (fs.eraseP (fun e2 => e2.name == nm), UnlinkResult.deleted)

/-- Lines 363-375: the deletion loop over `dl_extra_list`.  Each attempt is
independent; a failure is recorded and the loop continues with the next
entry. -/
def deleteExtras (fs : List DirEntry) : List String → List DirEntry × List UnlinkResult
  | [] => (fs, [])
  | f :: rest =>
    let r1 := unlinkEntry fs f
    let r2 := deleteExtras r1.1 rest
    (r2.1, r1.2 :: r2.2)

/-- Lines 335-375, `storage_delta`, after the two fatal precondition checks
on the download directory (lines 338-343) have passed: compute the sorted
orphan list from the directory listing, and when `execute` is set run the
deletion loop; otherwise leave the directory untouched.  Returns the orphan
list, the final directory contents, and the per-orphan deletion results
(empty when `execute` is false, since the loop is skipped). -/
def storage_delta (torrents : List Torrent) (fs : List DirEntry) (execute : Bool) :
    List String × List DirEntry × List UnlinkResult :=
  let extras := dl_extra_list torrents (fs.map DirEntry.name)
  if execute then
    let r := deleteExtras fs extras
    (extras, r.1, r.2)
  else
    (extras, fs, [])

/-- A 1 GiB byte count, for the concrete free-space scenario. -/
def gib : Nat := 1024 ^ 3

/-- The policy of the specification's free-space scenario:
`min_seed_ratio = 2`, target 100 GiB. -/
def scenarioConfig : HelperConfig :=
  { min_seed_ratio := 2, min_free_space := 100 * gib }

/-- The five 20 GiB transfers of the specification's free-space scenario,
with ratios 5, 4, 3, 2, 1. -/
def scenarioTorrents : List Torrent :=
  [⟨1, "t5", 20 * gib, 5⟩, ⟨2, "t4", 20 * gib, 4⟩, ⟨3, "t3", 20 * gib, 3⟩,
   ⟨4, "t2", 20 * gib, 2⟩, ⟨5, "t1", 20 * gib, 1⟩]

end TransmissionHelper

namespace TransmissionHelper

theorem select_loop_eq_take (space : Int) :
    ∀ (l : List Torrent) (total : Int), ∃ n, select_loop space total l = l.take n := by
  intro l
  induction l with
  | nil => exact fun _ => ⟨0, rfl⟩
  | cons t ts ih =>
    intro total
    by_cases h : total < space
    · obtain ⟨n, hn⟩ := ih (total + (t.total_size : Int))
      exact ⟨n + 1, by rw [select_loop, if_pos h, hn]; rfl⟩
    · exact ⟨0, by rw [select_loop, if_neg h]; rfl⟩

theorem takeWhile_eq_take_aux {α : Type} (p : α → Bool) :
    ∀ l : List α, ∃ n, l.takeWhile p = l.take n := by
  intro l
  induction l with
  | nil => exact ⟨0, rfl⟩
  | cons a as ih =>
    by_cases h : p a
    · obtain ⟨n, hn⟩ := ih
      exact ⟨n + 1, by rw [List.takeWhile_cons, if_pos h, hn]; rfl⟩
    · exact ⟨0, by rw [List.takeWhile_cons, if_neg h]; rfl⟩

theorem sorted_filter_eq_takeWhile (minR : ℚ) :
    ∀ l : List Torrent, List.Sorted ratioGE l →
      l.filter (fun t => minR ≤ t.upload_ratio) =
        l.takeWhile (fun t => minR ≤ t.upload_ratio) := by
  intro l
  induction l with
  | nil => intro _; rfl
  | cons a as ih =>
    intro hs
    rw [List.sorted_cons] at hs
    by_cases h : minR ≤ a.upload_ratio
    · rw [List.filter_cons, List.takeWhile_cons, if_pos (by simpa using h),
        if_pos (by simpa using h), ih hs.2]
    · rw [List.filter_cons, List.takeWhile_cons, if_neg (by simpa using h),
        if_neg (by simpa using h)]
      rw [List.filter_eq_nil_iff]
      intro b hb
      simp only [decide_eq_true_eq]
      intro hle
      exact h (le_trans hle (hs.1 b hb))

theorem sorted_sort_by_ratio_desc (l : List Torrent) :
    List.Sorted ratioGE (sort_by_ratio_desc l) :=
  List.sorted_insertionSort ratioGE l

theorem perm_sort_by_ratio_desc (l : List Torrent) :
    List.Perm (sort_by_ratio_desc l) l :=
  List.perm_insertionSort ratioGE l

theorem planSelection_eq (cfg : HelperConfig) (free : Nat) (server : List Torrent) :
    planSelection cfg free server =
      if cfg.min_free_space < free then []
      else if sum_sizes ((sort_by_ratio_desc server).filter
          (fun t => cfg.min_seed_ratio ≤ t.upload_ratio)) = 0 then []
      else
        select_loop ((cfg.min_free_space : Int) - (free : Int)) 0
          ((sort_by_ratio_desc server).filter
            (fun t => cfg.min_seed_ratio ≤ t.upload_ratio)) := by
  unfold planSelection cleanup_free_space get_torrents_data initState
  split_ifs with h1 h2 <;> simp_all

theorem filter_ratio_orderedInsert (q : ℚ) (a : Torrent) :
    ∀ m : List Torrent,
      (List.orderedInsert ratioGE a m).filter (fun t => t.upload_ratio = q) =
        if a.upload_ratio = q then
          a :: m.filter (fun t => t.upload_ratio = q)
        else m.filter (fun t => t.upload_ratio = q) := by
  intro m
  induction m with
  | nil => simp [List.orderedInsert, List.filter_cons]
  | cons b bs ih =>
    rw [List.orderedInsert]
    by_cases hr : ratioGE a b
    · rw [if_pos hr, List.filter_cons, List.filter_cons]
      split_ifs <;> simp_all [List.filter_cons]
    · rw [if_neg hr, List.filter_cons, List.filter_cons]
      by_cases hb : b.upload_ratio = q
      · have ha : ¬ a.upload_ratio = q := by
          intro ha
          exact hr (by rw [ratioGE, hb, ha])
        simp [hb, ha, ih]
      · simp [hb, ih]

theorem filter_ratio_sort_by_ratio_desc (q : ℚ) :
    ∀ l : List Torrent,
      (sort_by_ratio_desc l).filter (fun t => t.upload_ratio = q) =
        l.filter (fun t => t.upload_ratio = q) := by
  intro l
  induction l with
  | nil => rfl
  | cons a as ih =>
    rw [sort_by_ratio_desc, List.insertionSort]
    rw [filter_ratio_orderedInsert, List.filter_cons]
    split_ifs with h <;> simp_all [sort_by_ratio_desc]

/-- C4 (confirmed): for every policy, free-space reading and transfer list,
the selection computed by a fresh `cleanup` run is a contiguous prefix
(`List.take n`) of the transfer list stably sorted by ratio descending: the
sorted list is a permutation of the input, it is sorted with respect to
`ratioGE`, equal-ratio transfers keep their relative input order (the
filter characterisation of stability), and the selection never includes a
transfer that comes after a skipped one in the sorted order. -/
theorem cleanup_selection_is_sorted_take (cfg : HelperConfig) (free : Nat)
    (server : List Torrent) :
    (∃ n, planSelection cfg free server = (sort_by_ratio_desc server).take n) ∧
      List.Perm (sort_by_ratio_desc server) server ∧
      List.Sorted ratioGE (sort_by_ratio_desc server) ∧
      ∀ q : ℚ,
        (sort_by_ratio_desc server).filter (fun t => t.upload_ratio = q) =
          server.filter (fun t => t.upload_ratio = q) := by
  refine ⟨?_, perm_sort_by_ratio_desc server, sorted_sort_by_ratio_desc server,
    fun q => filter_ratio_sort_by_ratio_desc q server⟩
  rw [planSelection_eq]
  split_ifs with h1 h2
  · exact ⟨0, rfl⟩
  · exact ⟨0, rfl⟩
  · rw [sorted_filter_eq_takeWhile _ _ (sorted_sort_by_ratio_desc server)]
    obtain ⟨k, hk⟩ := takeWhile_eq_take_aux
      (fun t => decide (cfg.min_seed_ratio ≤ t.upload_ratio)) (sort_by_ratio_desc server)
    rw [hk]
    obtain ⟨n, hn⟩ := select_loop_eq_take ((cfg.min_free_space : Int) - (free : Int))
      ((sort_by_ratio_desc server).take k) 0
    rw [hn, List.take_take]
    exact ⟨min n k, rfl⟩

/-- C1 (counterexample): with `min_seed_ratio = 3`, a transfer whose ratio
is exactly 3 — equal to the threshold — is selected by the removal plan,
because the filter at line 230 uses the inclusive `>=`, not the strict `>`
claimed. -/
theorem ratio_equal_selected :
    (⟨1, "x", 10, 3⟩ : Torrent) ∈ planSelection ⟨3, 100⟩ 0 [⟨1, "x", 10, 3⟩] ∧
      (⟨1, "x", 10, 3⟩ : Torrent).upload_ratio = (⟨3, 100⟩ : HelperConfig).min_seed_ratio := by
  exact ⟨by decide, rfl⟩

/-- C1 (amended): no transfer whose ratio is strictly below `min_seed_ratio`
ever appears in the removal plan of a fresh run; the eligibility test at
line 230 is the inclusive comparison `ratio >= min_seed_ratio`, so a
transfer with ratio exactly equal to the threshold is included, and every
selected transfer satisfies `min_seed_ratio ≤ ratio`. -/
theorem selection_ratio_lower_bound (cfg : HelperConfig) (free : Nat)
    (server : List Torrent) (t : Torrent)
    (ht : t ∈ planSelection cfg free server) :
    cfg.min_seed_ratio ≤ t.upload_ratio := by
  rw [planSelection_eq] at ht
  split_ifs at ht with h1 h2
  · exact absurd ht (List.not_mem_nil t)
  · exact absurd ht (List.not_mem_nil t)
  · obtain ⟨n, hn⟩ := select_loop_eq_take ((cfg.min_free_space : Int) - (free : Int))
      ((sort_by_ratio_desc server).filter (fun t => cfg.min_seed_ratio ≤ t.upload_ratio)) 0
    rw [hn] at ht
    have := List.take_subset n _ ht
    simpa using (List.mem_filter.1 this).2

theorem selection_ratio_lower_bound_witness :
    (2 : ℚ) ≤ (⟨4, "t2", 20 * gib, 2⟩ : Torrent).upload_ratio :=
  selection_ratio_lower_bound scenarioConfig (10 * gib) scenarioTorrents
    ⟨4, "t2", 20 * gib, 2⟩ (by decide)

/-- C2 (counterexample): when the probed free space EQUALS the configured
minimum, `cleanup` does not take the early exit: `__is_enough_free_space`
at line 221 uses the strict `>`, so at equality the run proceeds to connect
and fetch the transfer list, contradicting the claimed `>=` short-circuit. -/
theorem no_early_exit_at_equality :
    cleanup_free_space ⟨3, 100⟩ 100 [⟨1, "x", 10, 5⟩] initState ≠
      CleanupOutcome.earlyExit := by
  decide

/-- C2 (amended): the early exit — an empty plan with no consultation of
the transfer list — is taken exactly when the snapshot's free bytes are
STRICTLY greater than `min_free_space`; whenever free space is less than
or equal to the minimum (equality included), the transfer list is fetched
and the run continues past the short-circuit. -/
theorem early_exit_iff_strictly_enough (cfg : HelperConfig) (free : Nat)
    (server : List Torrent) (s : HelperState) :
    (cfg.min_free_space < free →
      cleanup_free_space cfg free server s = CleanupOutcome.earlyExit) ∧
    (free ≤ cfg.min_free_space →
      cleanup_free_space cfg free server s ≠ CleanupOutcome.earlyExit) := by
  constructor
  · intro h
    rw [cleanup_free_space, if_pos h]
  · intro h
    rw [cleanup_free_space, if_neg (not_lt.2 h)]
    by_cases h2 : (get_torrents_data cfg server s).torrent_list_min_ratio_size = 0
    · simp [h2]
    · simp [h2]

theorem early_exit_iff_strictly_enough_witness :
    cleanup_free_space ⟨3, 100⟩ 101 [] initState = CleanupOutcome.earlyExit ∧
      cleanup_free_space ⟨3, 100⟩ 100 [] initState ≠ CleanupOutcome.earlyExit :=
  ⟨(early_exit_iff_strictly_enough ⟨3, 100⟩ 101 [] initState).1 (by norm_num),
   (early_exit_iff_strictly_enough ⟨3, 100⟩ 100 [] initState).2 (by norm_num)⟩

/-- C3 (counterexample): in the specification's scenario (free 10 GiB,
target 100 GiB, five 20 GiB transfers with ratios 5,4,3,2,1,
`min_seed_ratio = 2`), the ratio-2 transfer IS selected — the filter is the
inclusive `ratio >= 2` — contradicting the claim that `2 > 2` being false
excludes it. -/
theorem scenario_ratio_two_selected :
    (⟨4, "t2", 20 * gib, 2⟩ : Torrent) ∈
      planSelection scenarioConfig (10 * gib) scenarioTorrents := by
  decide

/-- C3 (amended): in the scenario, the engine selects the FOUR transfers
with ratios 5, 4, 3 and 2 (cumulative 80 GiB): after the first three the
running total 60 GiB is still below the 90 GiB deficit, the ratio-2
transfer passes the inclusive filter (`2 >= 2`) and is added, the ratio-1
transfer is excluded by the filter, and the space target is still not met
(10 GiB + 80 GiB < 100 GiB). -/
theorem scenario_selects_four :
    planSelection scenarioConfig (10 * gib) scenarioTorrents =
      [⟨1, "t5", 20 * gib, 5⟩, ⟨2, "t4", 20 * gib, 4⟩, ⟨3, "t3", 20 * gib, 3⟩,
        ⟨4, "t2", 20 * gib, 2⟩] ∧
      sum_sizes (planSelection scenarioConfig (10 * gib) scenarioTorrents) = 80 * gib ∧
      10 * gib + 80 * gib < 100 * gib := by
  refine ⟨by decide, by decide, by norm_num [gib]⟩

/-- C8 (counterexample): the engine carries hidden state.  Running the same
cleanup twice in succession on one helper instance — the second run starting
from the state the first one left — does not reproduce the first output: the
accumulators `torrent_list_min_free_space` and
`torrent_list_min_free_space_size` are `+=`-ed without reset (lines 140-142
are only executed by `__init__`), so the second plan holds the torrent
twice with triple the size. -/
theorem second_run_differs :
    cleanup_free_space ⟨3, 100⟩ 0 [⟨1, "x", 10, 5⟩]
        (stateAfter (cleanup_free_space ⟨3, 100⟩ 0 [⟨1, "x", 10, 5⟩] initState)) ≠
      cleanup_free_space ⟨3, 100⟩ 0 [⟨1, "x", 10, 5⟩] initState ∧
    (stateAfter (cleanup_free_space ⟨3, 100⟩ 0 [⟨1, "x", 10, 5⟩]
        (stateAfter (cleanup_free_space ⟨3, 100⟩ 0 [⟨1, "x", 10, 5⟩] initState)))).torrent_list_min_free_space =
      [⟨1, "x", 10, 5⟩, ⟨1, "x", 10, 5⟩] ∧
    (stateAfter (cleanup_free_space ⟨3, 100⟩ 0 [⟨1, "x", 10, 5⟩] initState)).torrent_list_min_free_space =
      [⟨1, "x", 10, 5⟩] := by
  exact ⟨by decide, by decide, by decide⟩

/-- C8 (amended): the engine is deterministic, but not free of hidden
state: its outcome is a function of the inputs and of exactly the three
accumulator attributes (`torrent_list_min_ratio_size`,
`torrent_list_min_free_space`, `torrent_list_min_free_space_size`) of the
instance state — the two fetched lists are overwritten each run and do not
influence the result.  Two evaluations with identical inputs therefore
yield identical output precisely when they start from equal accumulators
(as two fresh instances do); successive evaluations on one instance do
not, because the accumulators are never reset. -/
theorem cleanup_depends_only_on_accumulators (cfg : HelperConfig) (free : Nat)
    (server : List Torrent) (s s' : HelperState)
    (h1 : s.torrent_list_min_ratio_size = s'.torrent_list_min_ratio_size)
    (h2 : s.torrent_list_min_free_space = s'.torrent_list_min_free_space)
    (h3 : s.torrent_list_min_free_space_size = s'.torrent_list_min_free_space_size) :
    cleanup_free_space cfg free server s = cleanup_free_space cfg free server s' := by
  cases s
  cases s'
  simp only at h1 h2 h3
  subst h1
  subst h2
  subst h3
  rfl

theorem cleanup_depends_only_on_accumulators_witness :
    cleanup_free_space ⟨3, 100⟩ 0 [⟨1, "x", 10, 5⟩] ⟨[⟨2, "y", 7, 1⟩], [], 0, [], 0⟩ =
      cleanup_free_space ⟨3, 100⟩ 0 [⟨1, "x", 10, 5⟩] initState :=
  cleanup_depends_only_on_accumulators ⟨3, 100⟩ 0 [⟨1, "x", 10, 5⟩]
    ⟨[⟨2, "y", 7, 1⟩], [], 0, [], 0⟩ initState rfl rfl rfl

/-- C10 (confirmed): after the free-space early exit is declined, `cleanup`
decides the "no eligible torrent" outcome (`exit(1)` at line 251) by
testing whether the SUMMED `total_size` of the ratio-eligible transfers is
zero (line 248), not their count: whenever every ratio-eligible transfer
has `total_size = 0` — even when eligible transfers exist — a fresh run
terminates with the no-op outcome before any selection is computed. -/
theorem zero_size_means_no_eligible (cfg : HelperConfig) (free : Nat)
    (server : List Torrent)
    (hfree : free ≤ cfg.min_free_space)
    (hsz : sum_sizes (min_ratio_list cfg.min_seed_ratio server) = 0) :
    cleanup_free_space cfg free server initState = CleanupOutcome.noEligible := by
  rw [cleanup_free_space, if_neg (not_lt.2 hfree)]
  rw [min_ratio_list] at hsz
  simp [get_torrents_data, initState, hsz]

theorem zero_size_means_no_eligible_witness :
    cleanup_free_space ⟨3, 100⟩ 0 [⟨1, "x", 0, 5⟩] initState =
        CleanupOutcome.noEligible ∧
      min_ratio_list (3 : ℚ) [⟨1, "x", 0, 5⟩] = [⟨1, "x", 0, 5⟩] :=
  ⟨zero_size_means_no_eligible ⟨3, 100⟩ 0 [⟨1, "x", 0, 5⟩] (by norm_num) (by decide),
   by decide⟩

theorem unlink_preserves_dir (nm : String) :
    ∀ (fs : List DirEntry) (e : DirEntry), e ∈ fs → e.kind = EntryKind.dir →
      e ∈ (unlinkEntry fs nm).1 := by
  intro fs
  induction fs with
  | nil => intro e he _; exact absurd he (List.not_mem_nil e)
  | cons b l ih =>
    intro e he hk
    rw [unlinkEntry]
    by_cases hb : (b.name == nm) = true
    · simp only [List.find?, hb]
      cases hbk : b.kind with
      | dir => exact he
      | file =>
        simp only [List.eraseP, hb, cond_true]
        rcases List.mem_cons.1 he with rfl | hel
        · rw [hbk] at hk; exact absurd hk (by simp)
        · exact hel
    · have hb' : (b.name == nm) = false := by simpa using hb
      simp only [List.find?, hb']
      cases hfind : List.find? (fun e2 => e2.name == nm) l with
      | none => exact he
      | some a =>
        dsimp only
        cases hak : a.kind with
        | dir => dsimp only; exact he
        | file =>
          dsimp only
          simp only [List.eraseP, hb', cond_false]
          rcases List.mem_cons.1 he with rfl | hel
          · exact List.mem_cons_self _ _
          · have hmem := ih e hel hk
            simp only [unlinkEntry, hfind, hak] at hmem
            exact List.mem_cons_of_mem _ hmem

theorem deleteExtras_preserves_dirs :
    ∀ (extras : List String) (fs : List DirEntry) (e : DirEntry),
      e ∈ fs → e.kind = EntryKind.dir → e ∈ (deleteExtras fs extras).1 := by
  intro extras
  induction extras with
  | nil => intro fs e he _; exact he
  | cons f rest ih =>
    intro fs e he hk
    exact ih (unlinkEntry fs f).1 e (unlink_preserves_dir f fs e he hk) hk

theorem deleteExtras_length :
    ∀ (extras : List String) (fs : List DirEntry),
      (deleteExtras fs extras).2.length = extras.length := by
  intro extras
  induction extras with
  | nil => intro fs; rfl
  | cons f rest ih =>
    intro fs
    simp [deleteExtras, ih]

/-- C5 (counterexample): with `execute = true` and a single orphan that is a
DIRECTORY, the run leaves it in place: the deletion at line 368 is
`Path.unlink()`, which fails on a directory (the error is caught at lines
374-375), so no directory is ever removed, recursively or otherwise —
contradicting the claim that "a directory is removed recursively". -/
theorem directory_not_removed :
    (⟨"d", EntryKind.dir⟩ : DirEntry) ∈
      (storage_delta [] [⟨"d", EntryKind.dir⟩] true).2.1 := by
  decide

/-- C5 (amended): when the reconciler runs with `execute = true`, it
attempts `Path.unlink` on every orphan entry; a plain file is unlinked,
while a DIRECTORY is not removed (the unlink raises, the error is caught
and logged).  Each deletion is independent and best-effort: every orphan
produces exactly one recorded outcome (no failure aborts the remaining
deletions), directories always survive, and in particular a not-found
failure on one orphan does not prevent the deletion of the next one, the
run completing normally. -/
theorem delete_is_per_entry_best_effort (fs : List DirEntry) (extras : List String) :
    (deleteExtras fs extras).2.length = extras.length ∧
      (∀ e ∈ fs, e.kind = EntryKind.dir → e ∈ (deleteExtras fs extras).1) ∧
      deleteExtras [⟨"f", EntryKind.file⟩] ["missing", "f"] =
        ([], [UnlinkResult.notFound, UnlinkResult.deleted]) :=
  ⟨deleteExtras_length extras fs,
   fun e he hk => deleteExtras_preserves_dirs extras fs e he hk,
   by decide⟩

theorem delete_is_per_entry_best_effort_witness :
    (deleteExtras [⟨"d", EntryKind.dir⟩] ["d"]).2.length = 1 ∧
      (⟨"d", EntryKind.dir⟩ : DirEntry) ∈ (deleteExtras [⟨"d", EntryKind.dir⟩] ["d"]).1 :=
  ⟨(delete_is_per_entry_best_effort [⟨"d", EntryKind.dir⟩] ["d"]).1,
   (delete_is_per_entry_best_effort [⟨"d", EntryKind.dir⟩] ["d"]).2.1
     ⟨"d", EntryKind.dir⟩ (by decide) rfl⟩

/-- C6 (confirmed): the reconciler's diff returns exactly the directory
entries whose name equals no torrent name (exact, case-sensitive string
equality — Lean's character-wise equality models Python's code-point
equality on `str`), sorted lexicographically by code point (`strLeR`, the
order of Python's `list.sort` on strings): membership is characterised
exactly, the output is sorted and is a permutation of the unmatched
entries, and in particular transfers A,B against entries [A,B,C] yield
exactly [C], an empty listing yields [], and lowercase "a" is an orphan
when only "A" is tracked. -/
theorem storage_delta_diff_exact (torrents : List Torrent) (entries : List String) :
    (∀ e, e ∈ dl_extra_list torrents entries ↔
        e ∈ entries ∧ ∀ t ∈ torrents, t.name ≠ e) ∧
      List.Sorted strLeR (dl_extra_list torrents entries) ∧
      List.Perm (dl_extra_list torrents entries)
        (entries.filter (fun item => !(nameMatches torrents item))) ∧
      dl_extra_list [⟨1, "A", 0, 0⟩, ⟨2, "B", 0, 0⟩] ["A", "B", "C"] = ["C"] ∧
      dl_extra_list [⟨1, "A", 0, 0⟩, ⟨2, "B", 0, 0⟩] [] = [] ∧
      dl_extra_list [⟨1, "A", 0, 0⟩] ["a"] = ["a"] := by
  refine ⟨?_, List.sorted_insertionSort strLeR _, List.perm_insertionSort strLeR _,
    by decide, by decide, by decide⟩
  intro e
  rw [dl_extra_list, List.mem_insertionSort, List.mem_filter]
  simp [nameMatches]

/-- C9 (confirmed): with `execute = false` the reconciler performs no
filesystem mutation for any input: the deletion loop at lines 362-375 is
skipped entirely, the directory contents are returned unchanged, no
deletion outcome is recorded, and only the orphan list is computed and
reported. -/
theorem no_mutation_without_execute (torrents : List Torrent) (fs : List DirEntry) :
    storage_delta torrents fs false =
      (dl_extra_list torrents (fs.map DirEntry.name), fs, []) := rfl

theorem le_div_1024 {x : ℚ} {k : ℕ} (h : 1024 ^ (k + 1) ≤ x) :
    1024 ^ k ≤ x / 1024 := by
  rw [le_div_iff₀ (by norm_num : (0 : ℚ) < 1024)]
  calc (1024 : ℚ) ^ k * 1024 = 1024 ^ (k + 1) := by rw [pow_succ]
  _ ≤ x := h

theorem not_lt_1024 {x : ℚ} {k : ℕ} (h : 1024 ^ (k + 1) ≤ x) :
    ¬ x < 1024 := by
  refine not_lt.2 (le_trans ?_ h)
  calc (1024 : ℚ) = 1024 ^ 1 := (pow_one _).symm
  _ ≤ 1024 ^ (k + 1) := by
    refine pow_le_pow_right₀ (by norm_num) (by omega)

theorem hr_loop_clamps_at_pib (q : ℚ) (h : 1024 ^ 5 ≤ q) :
    (hr_loop q sizeUnits).2 = "PiB" := by
  have h4 : (1024 : ℚ) ^ 4 ≤ q / 1024 := le_div_1024 h
  have h3 : (1024 : ℚ) ^ 3 ≤ q / 1024 / 1024 := le_div_1024 h4
  have h2 : (1024 : ℚ) ^ 2 ≤ q / 1024 / 1024 / 1024 := le_div_1024 h3
  have h1 : (1024 : ℚ) ^ 1 ≤ q / 1024 / 1024 / 1024 / 1024 := le_div_1024 h2
  rw [sizeUnits, hr_loop,
    if_neg (by simp only [not_or]; exact ⟨not_lt_1024 h, by decide⟩),
    hr_loop, if_neg (by simp only [not_or]; exact ⟨not_lt_1024 h4, by decide⟩),
    hr_loop, if_neg (by simp only [not_or]; exact ⟨not_lt_1024 h3, by decide⟩),
    hr_loop, if_neg (by simp only [not_or]; exact ⟨not_lt_1024 h2, by decide⟩),
    hr_loop, if_neg (by simp only [not_or]; exact ⟨not_lt_1024 h1, by decide⟩),
    hr_loop, if_pos (Or.inr rfl)]

/-- C7 (confirmed): the size formatter repeatedly divides by 1024 while the
magnitude is at least 1024 and a larger unit exists in the ordered table
B, KiB, MiB, GiB, TiB, PiB, clamping at PiB: `format 0 = "0.00 B"`,
`format 1024 = "1.00 KiB"`, `format (1024^5) = "1.00 PiB"`, `format
(1024^6) = "1024.00 PiB"` (still PiB), and every magnitude of at least
`1024^5` renders in the top unit PiB. -/
theorem human_readable_size_spec :
    human_readable_size 0 = "0.00 B" ∧
      human_readable_size 1024 = "1.00 KiB" ∧
      human_readable_size (1024 ^ 5) = "1.00 PiB" ∧
      human_readable_size (1024 ^ 6) = "1024.00 PiB" ∧
      ∀ q : ℚ, 1024 ^ 5 ≤ q → (hr_loop q sizeUnits).2 = "PiB" := by
  refine ⟨?_, ?_, ?_, ?_, hr_loop_clamps_at_pib⟩
  · rw [human_readable_size, sizeUnits, hr_loop, if_pos (Or.inl (by norm_num))]
    decide
  · rw [human_readable_size, sizeUnits, hr_loop,
      if_neg (by simp only [not_or]; exact ⟨by norm_num, by decide⟩),
      show (1024 : ℚ) / 1024 = 1 by norm_num,
      hr_loop, if_pos (Or.inl (by norm_num))]
    decide
  · rw [human_readable_size, sizeUnits, hr_loop,
      if_neg (by simp only [not_or]; exact ⟨by norm_num, by decide⟩),
      show (1024 : ℚ) ^ 5 / 1024 = 1024 ^ 4 by norm_num,
      hr_loop, if_neg (by simp only [not_or]; exact ⟨by norm_num, by decide⟩),
      show (1024 : ℚ) ^ 4 / 1024 = 1024 ^ 3 by norm_num,
      hr_loop, if_neg (by simp only [not_or]; exact ⟨by norm_num, by decide⟩),
      show (1024 : ℚ) ^ 3 / 1024 = 1024 ^ 2 by norm_num,
      hr_loop, if_neg (by simp only [not_or]; exact ⟨by norm_num, by decide⟩),
      show (1024 : ℚ) ^ 2 / 1024 = 1024 by norm_num,
      hr_loop, if_neg (by simp only [not_or]; exact ⟨by norm_num, by decide⟩),
      show (1024 : ℚ) / 1024 = 1 by norm_num,
      hr_loop, if_pos (Or.inr rfl)]
    decide
  · rw [human_readable_size, sizeUnits, hr_loop,
      if_neg (by simp only [not_or]; exact ⟨by norm_num, by decide⟩),
      show (1024 : ℚ) ^ 6 / 1024 = 1024 ^ 5 by norm_num,
      hr_loop, if_neg (by simp only [not_or]; exact ⟨by norm_num, by decide⟩),
      show (1024 : ℚ) ^ 5 / 1024 = 1024 ^ 4 by norm_num,
      hr_loop, if_neg (by simp only [not_or]; exact ⟨by norm_num, by decide⟩),
      show (1024 : ℚ) ^ 4 / 1024 = 1024 ^ 3 by norm_num,
      hr_loop, if_neg (by simp only [not_or]; exact ⟨by norm_num, by decide⟩),
      show (1024 : ℚ) ^ 3 / 1024 = 1024 ^ 2 by norm_num,
      hr_loop, if_neg (by simp only [not_or]; exact ⟨by norm_num, by decide⟩),
      show (1024 : ℚ) ^ 2 / 1024 = 1024 by norm_num,
      hr_loop, if_pos (Or.inr rfl)]
    decide

theorem human_readable_size_spec_witness :
    (hr_loop ((1024 : ℚ) ^ 7) sizeUnits).2 = "PiB" :=
  human_readable_size_spec.2.2.2.2 (1024 ^ 7)
    (by norm_num)

end TransmissionHelper
